import Mathlib

/-!
Verification of the sound-effect resolver and real-time playback engine of
src/sdlsound.cpp.  The five-level nested lookup maps, the per-buffer resample
callback, the pitch shifter and the resource table are embedded as executable
Lean definitions; fractional sample positions are modelled with rationals
(the code only ever uses the exactly representable speeds 0.25 and 1.0).
-/

namespace SdlSound

/-! Enumerations and validation helpers (sdlsound.cpp lines 99 to 233). -/

inductive SfxSeason where
  | NONE
  | SPRING
  | SUMMER
  | AUTUMN
  | WINTER
deriving DecidableEq, Repr

inductive SfxInOrOut where
  | EITHER
  | OUTDOORS
  | INDOORS
deriving DecidableEq, Repr

inductive SfxTimeOfDay where
  | ANY
  | DAYTIME
  | NIGHTTIME
deriving DecidableEq, Repr

/-- Translation of season_from_string: the empty string denotes NONE and an
unrecognized token throws std::invalid_argument. -/
def season_from_string (str : String) : Except String SfxSeason :=
  if str = "" then .ok .NONE
  else if str = "spring" then .ok .SPRING
  else if str = "summer" then .ok .SUMMER
  else if str = "autumn" then .ok .AUTUMN
  else if str = "winter" then .ok .WINTER
  else .error "sfx specified unknown season"

/-- Translation of in_or_out_from_int: value + 1 must land inside the enum. -/
def in_or_out_from_int (value : ℤ) : Except String SfxInOrOut :=
  if value + 1 = 0 then .ok .EITHER
  else if value + 1 = 1 then .ok .OUTDOORS
  else if value + 1 = 2 then .ok .INDOORS
  else .error "sfx specified unknown inside or outside value"

/-- Translation of tod_from_int: value + 1 must land inside the enum. -/
def tod_from_int (value : ℤ) : Except String SfxTimeOfDay :=
  if value + 1 = 0 then .ok .ANY
  else if value + 1 = 1 then .ok .DAYTIME
  else if value + 1 = 2 then .ok .NIGHTTIME
  else .error "sfx specified unknown day or night value"

/-- Translation of bool_or: an optional bool collapsed to an int with a default. -/
def bool_or (opt : Option Bool) (defl : ℤ) : ℤ :=
  match opt with
  | some b => if b then 1 else 0
  | none => defl

/-- A sound_effect is a volume plus an interned resource id. -/
structure sound_effect where
  volume : ℤ
  resource_id : ℕ
deriving DecidableEq, Repr

abbrev Bucket := List sound_effect

/-! The nested std::map levels are modelled as association lists with unique
keys; lookupA is std::map::find and updA is operator[] followed by an update
of the mapped value (creating a default-constructed entry when absent). -/

def lookupA {α β : Type} [DecidableEq α] : List (α × β) → α → Option β
  | [], _ => none
  | (k, v) :: rest, a => if a = k then some v else lookupA rest a

def updA {α β : Type} [DecidableEq α] : List (α × β) → α → β → (β → β) → List (α × β)
  | [], a, d, f => [(a, f d)]
  | (k, v) :: rest, a, d, f =>
      if a = k then (k, f v) :: rest else (k, v) :: updA rest a d f

abbrev Map1 := List (SfxTimeOfDay × Bucket)
abbrev Map2 := List (SfxInOrOut × Map1)
abbrev Map3 := List (SfxSeason × Map2)
abbrev Map4 := List (String × Map3)
abbrev Map5 := List (String × Map4)

/-! Translation of the variadic template find_sfx (exact lookup, lines 165
to 184): one function per instantiated level. -/

def find_sfx1 (m : Map1) (k5 : SfxTimeOfDay) : Option Bucket :=
  lookupA m k5

def find_sfx2 (m : Map2) (k4 : SfxInOrOut) (k5 : SfxTimeOfDay) : Option Bucket :=
  match lookupA m k4 with
  | none => none
  | some sub => find_sfx1 sub k5

def find_sfx3 (m : Map3) (k3 : SfxSeason) (k4 : SfxInOrOut) (k5 : SfxTimeOfDay) :
    Option Bucket :=
  match lookupA m k3 with
  | none => none
  | some sub => find_sfx2 sub k4 k5

def find_sfx4 (m : Map4) (k2 : String) (k3 : SfxSeason) (k4 : SfxInOrOut)
    (k5 : SfxTimeOfDay) : Option Bucket :=
  match lookupA m k2 with
  | none => none
  | some sub => find_sfx3 sub k3 k4 k5

def find_sfx5 (m : Map5) (k1 k2 : String) (k3 : SfxSeason) (k4 : SfxInOrOut)
    (k5 : SfxTimeOfDay) : Option Bucket :=
  match lookupA m k1 with
  | none => none
  | some sub => find_sfx4 sub k2 k3 k4 k5

/-- The probe shared by every find_closest_sfx level: try the supplied key,
then the default key (lines 186 to 214). -/
def probeA {α β : Type} [DecidableEq α] (m : List (α × β)) (k d : α) : Option β :=
  match lookupA m k with
  | some v => some v
  | none => lookupA m d

/-! Translation of the variadic template find_closest_sfx (fallback lookup,
lines 186 to 214): one function per instantiated level. -/

def find_closest_sfx1 (m : Map1) (k5 d5 : SfxTimeOfDay) : Option Bucket :=
  probeA m k5 d5

def find_closest_sfx2 (m : Map2) (k4 d4 : SfxInOrOut) (k5 d5 : SfxTimeOfDay) :
    Option Bucket :=
  match probeA m k4 d4 with
  | none => none
  | some sub => find_closest_sfx1 sub k5 d5

def find_closest_sfx3 (m : Map3) (k3 d3 : SfxSeason) (k4 d4 : SfxInOrOut)
    (k5 d5 : SfxTimeOfDay) : Option Bucket :=
  match probeA m k3 d3 with
  | none => none
  | some sub => find_closest_sfx2 sub k4 d4 k5 d5

def find_closest_sfx4 (m : Map4) (k2 d2 : String) (k3 d3 : SfxSeason)
    (k4 d4 : SfxInOrOut) (k5 d5 : SfxTimeOfDay) : Option Bucket :=
  match probeA m k2 d2 with
  | none => none
  | some sub => find_closest_sfx3 sub k3 d3 k4 d4 k5 d5

def find_closest_sfx5 (m : Map5) (k1 d1 k2 d2 : String) (k3 d3 : SfxSeason)
    (k4 d4 : SfxInOrOut) (k5 d5 : SfxTimeOfDay) : Option Bucket :=
  match probeA m k1 d1 with
  | none => none
  | some sub => find_closest_sfx4 sub k2 d2 k3 d3 k4 d4 k5 d5

/-! Translation of the variadic template emplace_sfx (lines 216 to 228)
composed with the callers' emplace_back: descend through operator[] creating
intermediate levels on demand and append the effect to the final bucket. -/

def emplace_sfx1 (m : Map1) (k5 : SfxTimeOfDay) (e : sound_effect) : Map1 :=
  updA m k5 [] (fun b => b ++ [e])

def emplace_sfx2 (m : Map2) (k4 : SfxInOrOut) (k5 : SfxTimeOfDay) (e : sound_effect) :
    Map2 :=
  updA m k4 [] (fun sub => emplace_sfx1 sub k5 e)

def emplace_sfx3 (m : Map3) (k3 : SfxSeason) (k4 : SfxInOrOut) (k5 : SfxTimeOfDay)
    (e : sound_effect) : Map3 :=
  updA m k3 [] (fun sub => emplace_sfx2 sub k4 k5 e)

def emplace_sfx4 (m : Map4) (k2 : String) (k3 : SfxSeason) (k4 : SfxInOrOut)
    (k5 : SfxTimeOfDay) (e : sound_effect) : Map4 :=
  updA m k2 [] (fun sub => emplace_sfx3 sub k3 k4 k5 e)

def emplace_sfx5 (m : Map5) (k1 k2 : String) (k3 : SfxSeason) (k4 : SfxInOrOut)
    (k5 : SfxTimeOfDay) (e : sound_effect) : Map5 :=
  updA m k1 [] (fun sub => emplace_sfx4 sub k2 k3 k4 k5 e)

/-- Translation of sfx_map::find (fallback overload, lines 256 to 262): parse
the textual key parts and probe with the documented per-level defaults. -/
def sfx_map_find (m : Map5) (id variant season : String)
    (is_indoors is_night : Option Bool) : Except String (Option Bucket) := do
  let se ← season_from_string season
  let io ← in_or_out_from_int (bool_or is_indoors (-1))
  let t ← tod_from_int (bool_or is_night (-1))
  pure (find_closest_sfx5 m id "" variant "default" se .NONE io .EITHER t .ANY)

/-- A fully validated key tuple: the identity of one resolver bucket. -/
structure norm_key where
  id : String
  variant : String
  season : SfxSeason
  inout : SfxInOrOut
  tod : SfxTimeOfDay
deriving DecidableEq, Repr

/-- One insertion through sfx_map::operator[] plus std::vector::emplace_back. -/
def insert_effect (m : Map5) (p : norm_key × sound_effect) : Map5 :=
  emplace_sfx5 m p.1.id p.1.variant p.1.season p.1.inout p.1.tod p.2

/-- The map obtained from a sequence of insertions into an empty sfx_map. -/
def build_map (ops : List (norm_key × sound_effect)) : Map5 :=
  List.foldl insert_effect [] ops

/-- Exact lookup (sfx_map::find over find_sfx) at a validated key. -/
def find_exact (m : Map5) (k : norm_key) : Option Bucket :=
  find_sfx5 m k.id k.variant k.season k.inout k.tod

/-- The effects a sequence of insertions stored under one full key, in order. -/
def effects_for (ops : List (norm_key × sound_effect)) (k : norm_key) :
    List sound_effect :=
  (ops.filter (fun p => decide (p.1 = k))).map Prod.snd

/-! Specification-side formulations of the fallback search, written from the
wording of the claims rather than from the code, for comparison with the
translated find_closest_sfx. -/

/-- The level policy as worded in the claims: commit to the supplied value
when its entry exists, otherwise to the single per-level default, otherwise
fail the whole query. -/
def chooseLevelKey {α β : Type} [DecidableEq α] (m : List (α × β)) (k d : α) :
    Option α :=
  if (lookupA m k).isSome then some k
  else if (lookupA m d).isSome then some d
  else none

/-- Modelled from the claim wording of C1: fixed level order id, variant,
season, indoorness, timeOfDay; the id level is never defaulted; each later
level tries the supplied value and then its single default, committing per
level (no cross-product search). -/
def claimed_find (m : Map5) (id v : String) (se : SfxSeason) (io : SfxInOrOut)
    (t : SfxTimeOfDay) : Option Bucket := do
  let m4 ← lookupA m id
  let k2 ← chooseLevelKey m4 v "default"
  let m3 ← lookupA m4 k2
  let k3 ← chooseLevelKey m3 se .NONE
  let m2 ← lookupA m3 k3
  let k4 ← chooseLevelKey m2 io .EITHER
  let m1 ← lookupA m2 k4
  let k5 ← chooseLevelKey m1 t .ANY
  lookupA m1 k5

def amended_find1 (m : Map1) (t : SfxTimeOfDay) : Option Bucket := do
  let k5 ← chooseLevelKey m t .ANY
  lookupA m k5

def amended_find2 (m : Map2) (io : SfxInOrOut) (t : SfxTimeOfDay) : Option Bucket := do
  let k4 ← chooseLevelKey m io .EITHER
  let sub ← lookupA m k4
  amended_find1 sub t

def amended_find3 (m : Map3) (se : SfxSeason) (io : SfxInOrOut) (t : SfxTimeOfDay) :
    Option Bucket := do
  let k3 ← chooseLevelKey m se .NONE
  let sub ← lookupA m k3
  amended_find2 sub io t

def amended_find4 (m : Map4) (v : String) (se : SfxSeason) (io : SfxInOrOut)
    (t : SfxTimeOfDay) : Option Bucket := do
  let k2 ← chooseLevelKey m v "default"
  let sub ← lookupA m k2
  amended_find3 sub se io t

/-- Modelled from the amended wording of C1: identical to claimed_find except
that the id level, too, has a single default, the empty string. -/
def amended_find (m : Map5) (id v : String) (se : SfxSeason) (io : SfxInOrOut)
    (t : SfxTimeOfDay) : Option Bucket := do
  let k1 ← chooseLevelKey m id ""
  let sub ← lookupA m k1
  amended_find4 sub v se io t

/-! The real-time playback engine (sound_effect_handler, lines 676 to 826).
Float sample positions are modelled with rationals; the cast of a float to an
integer sample truncates toward zero, and fmodf is the truncated remainder. -/

/-- Truncation toward zero, the semantics of a C float-to-integer cast. -/
def qtrunc (x : ℚ) : ℤ :=
  if 0 ≤ x then ⌊x⌋ else ⌈x⌉

/-- The C fmodf: x minus y times the toward-zero truncation of x / y. -/
def qfmod (x y : ℚ) : ℚ :=
  x - y * (qtrunc (x / y) : ℚ)

/-- Translation of is_time_slowed (lines 676 to 682). -/
def is_time_slowed (speed moves : ℤ) : Bool :=
  decide (max speed 100 * 2 < moves)

/-- One stereo sample frame (left ear, right ear), as signed 16-bit values. -/
abbrev Frame := ℤ × ℤ

/-- The mutable per-voice state of a sound_effect_handler. -/
structure handler_state where
  current_sample_index : ℚ
  loops_remaining : ℤ
deriving DecidableEq, Repr

/-- low_index = floor of the fractional read position (line 725). -/
def low_index (st : handler_state) : ℤ :=
  ⌊st.current_sample_index⌋

/-- high_index = ceil of the fractional read position, redirected to 0 when it
equals the number of source samples (lines 726 to 729). -/
def high_index (n : ℕ) (st : handler_state) : ℤ :=
  if ⌈st.current_sample_index⌉ = (n : ℤ) then 0 else ⌈st.current_sample_index⌉

/-- Linear interpolation between the two samples closest to the current time,
truncated to an integer sample (lines 750 to 752). -/
def interp_sample (lv hv : ℤ) (t : ℚ) : ℤ :=
  qtrunc (((hv : ℚ) - (lv : ℚ)) * t + (lv : ℚ))

/-- The output frame written for the current position: with loops_remaining at
the -1 sentinel both source values are replaced by 0 (lines 733 to 756). -/
def frame_at (src : List Frame) (n : ℕ) (st : handler_state) : Frame :=
  let t : ℚ := st.current_sample_index - (low_index st : ℚ)
  if st.loops_remaining = -1 then
    (interp_sample 0 0 t, interp_sample 0 0 t)
  else
    let lf := src.getD (low_index st).toNat (0, 0)
    let hf := src.getD (high_index n st).toNat (0, 0)
    (interp_sample lf.1 hf.1 t, interp_sample lf.2 hf.2 t)

/-- The position and loop-count update at the end of one iteration of the
resample loop (lines 758 to 763): advance by 1.0 * playback_speed, and on
reaching the source length decrement loops_remaining and wrap with fmodf. -/
def step_state (n : ℕ) (speed : ℚ) (st : handler_state) : handler_state :=
  let c2 : ℚ := st.current_sample_index + 1 * speed
  if 0 ≤ st.loops_remaining ∧ (n : ℚ) ≤ c2 then
    { current_sample_index := qfmod c2 (n : ℚ), loops_remaining := st.loops_remaining - 1 }
  else
    { current_sample_index := c2, loops_remaining := st.loops_remaining }

/-- Modelled from the claim wording of C3: each produced output frame advances
the fractional read position by the playback-speed multiplier; when the
position reaches or exceeds the source length (while a loop budget remains),
loopsRemaining is decremented and the position is wrapped by fmod of the
source length, preserving the fractional remainder. -/
def spec_advance (n : ℕ) (speed : ℚ) (st : handler_state) : handler_state :=
  let c : ℚ := st.current_sample_index + speed
  if (n : ℚ) ≤ c ∧ 0 ≤ st.loops_remaining then
    { current_sample_index := qfmod c (n : ℚ), loops_remaining := st.loops_remaining - 1 }
  else
    { current_sample_index := c, loops_remaining := st.loops_remaining }

/-- What one invocation of the callback produced: the frames written to the
stream, the (low, high) source index pairs it read, and the final state. -/
structure effect_output where
  out : List Frame
  reads : List (ℤ × ℤ)
  final : handler_state
deriving DecidableEq, Repr

/-- The resample loop of slowed_time_effect (lines 723 to 764): write frames
while the destination has room and the position is inside the source; when
loops_remaining is the -1 sentinel nothing is read and silence is written. -/
def resample_go (src : List Frame) (n : ℕ) (speed : ℚ) :
    ℕ → handler_state → effect_output
  | 0, st => ⟨[], [], st⟩
  | fuel + 1, st =>
    if st.current_sample_index < (n : ℚ) then
      let r := resample_go src n speed fuel (step_state n speed st)
      ⟨frame_at src n st :: r.out,
       (if st.loops_remaining = -1 then r.reads else (low_index st, high_index n st) :: r.reads),
       r.final⟩
    else ⟨[], [], st⟩

def sound_speed_factor : ℚ := 1 / 4

/-- Translation of slowed_time_effect (lines 709 to 775): recompute the
playback speed from the time-slowed predicate, run the resample loop for
out_len destination frames, and request a channel halt when loops_remaining
ended negative. -/
def slowed_time_effect (time_slowed : Bool) (src : List Frame) (out_len : ℕ)
    (st : handler_state) : effect_output × Bool :=
  let playback_speed : ℚ := if time_slowed then sound_speed_factor else 1
  let r := resample_go src src.length playback_speed out_len st
  (r, decide (r.final.loops_remaining < 0))

/-- The loop budget make_audio stores (lines 787 to 788): nloops of -1, which
means loop forever, becomes the large-but-finite budget 10000. -/
def make_audio_loops (nloops : ℤ) : ℤ :=
  if nloops = -1 then 10000 else nloops

/-- The handler state make_audio creates: position 0 and the mapped budget. -/
def make_audio_state (nloops : ℤ) : handler_state :=
  ⟨0, make_audio_loops nloops⟩

/-- Every recorded source read is inside the n-sample source buffer. -/
def reads_ok (n : ℕ) (l : List (ℤ × ℤ)) : Prop :=
  ∀ p ∈ l, 0 ≤ p.1 ∧ p.1 < (n : ℤ) ∧ 0 ≤ p.2 ∧ p.2 < (n : ℤ)

instance reads_ok_decidable (n : ℕ) (l : List (ℤ × ℤ)) : Decidable (reads_ok n l) := by
  unfold reads_ok
  infer_instance

/-! The pitch shifter do_pitch_shift (lines 833 to 874).  A Mix_Chunk of alen
bytes holds alen / 4 stereo frames; the buffer is modelled directly as the
list of its frames. -/

/-- begin = trunc(i / pitch_real) (line 850). -/
def pitch_begin (s_in s_out i : ℕ) : ℕ :=
  (qtrunc ((i : ℚ) / ((s_out : ℚ) / (s_in : ℚ)))).toNat

/-- end = trunc((i + 1) / pitch_real), pulled back to begin when it reaches
the input length (lines 851 to 856). -/
def pitch_end (s_in s_out i : ℕ) : ℕ :=
  let e0 : ℕ := (qtrunc (((i : ℚ) + 1) / ((s_out : ℚ) / (s_in : ℚ)))).toNat
  if 0 < e0 ∧ s_in ≤ e0 then pitch_begin s_in s_out i else e0

/-- The source indices visited by the loop for j = begin; j <= end; j++. -/
def pitch_window (s_in s_out i : ℕ) : List ℕ :=
  (List.range (pitch_end s_in s_out i + 1 - pitch_begin s_in s_out i)).map
    (fun j => pitch_begin s_in s_out i + j)

/-- The left-ear samples of the given source indices. -/
def window_samples_lt (src : List Frame) (idx : List ℕ) : List ℤ :=
  idx.map (fun j => (src.getD j (0, 0)).1)

/-- The right-ear samples of the given source indices. -/
def window_samples_rt (src : List Frame) (idx : List ℕ) : List ℤ :=
  idx.map (fun j => (src.getD j (0, 0)).2)

/-- The output frame the do_pitch_shift loop writes for output index i: the
per-ear sum over the window [begin, end] divided by (end - begin + 1) as a
float and cast back to a sample, i.e. truncated (lines 843 to 871). -/
def pitch_frame (src : List Frame) (s_out i : ℕ) : Frame :=
  let s_in : ℕ := src.length
  let count : ℕ := pitch_end s_in s_out i + 1 - pitch_begin s_in s_out i
  (qtrunc (((window_samples_lt src (pitch_window s_in s_out i)).sum : ℚ) / (count : ℚ)),
   qtrunc (((window_samples_rt src (pitch_window s_in s_out i)).sum : ℚ) / (count : ℚ)))

/-- Translation of do_pitch_shift: s_out = trunc(s_in * pitch) output frames,
each produced by the window-averaging loop (lines 833 to 874). -/
def do_pitch_shift (src : List Frame) (pitch : ℚ) : List Frame :=
  (List.range ((qtrunc ((src.length : ℚ) * pitch)).toNat)).map
    (pitch_frame src ((qtrunc ((src.length : ℚ) * pitch)).toNat))

/-- Modelled from the claim wording of C7: the arithmetic mean of a list of
samples, truncated to an integer sample. -/
def trunc_mean (xs : List ℤ) : ℤ :=
  qtrunc ((xs.sum : ℚ) / (xs.length : ℚ))

/-- Modelled from the amended wording of C7: the input indices that fall in
the closed interval [lo, hi]. -/
def window_members (s_in lo hi : ℕ) : List ℕ :=
  (List.range s_in).filter (fun j => decide (lo ≤ j) && decide (j ≤ hi))

/-! The resource table (lines 505 to 558).  A decoded Mix_Chunk is modelled
as its list of frames; Mix_LoadWAV is an environment function returning none
on failure. -/

structure sound_effect_resource where
  path : String
  chunk : Option (List Frame)
deriving DecidableEq, Repr

/-- Translation of make_null_chunk: a valid, empty chunk (lines 505 to 518). -/
def make_null_chunk : List Frame := []

/-- Translation of load_chunk (lines 520 to 529): decode, or substitute the
null chunk when decoding fails. -/
def load_chunk (decode : String → Option (List Frame)) (path : String) : List Frame :=
  match decode path with
  | some c => c
  | none => make_null_chunk

/-- Translation of get_sfx_resource (lines 531 to 542): return the cached
chunk, or decode once and cache the result. -/
def get_sfx_resource (decode : String → Option (List Frame))
    (resources : List sound_effect_resource) (resource_id : ℕ) :
    List Frame × List sound_effect_resource :=
  let r := resources.getD resource_id ⟨"", none⟩
  match r.chunk with
  | some c => (c, resources)
  | none =>
      let c := load_chunk decode r.path
      (c, resources.set resource_id ⟨r.path, some c⟩)

/-- A decoder that always fails, for concrete instantiations. -/
def no_decode : String → Option (List Frame) := fun _ => none

/-! sfx::play_ambient_variant_sound (lines 947 to 988). -/

/-- Translation of check_sound (lines 304 to 307). -/
def check_sound (init_success enabled : Bool) (volume : ℤ) : Bool :=
  init_success && enabled && decide (0 < volume)

/-- Translation of find_random_effect (lines 653 to 667): the fallback lookup
followed by random_entry_ref, whose random draw is supplied as pick. -/
def find_random_effect (m : Map5) (pick : ℕ) (id variant season : String)
    (is_indoors is_night : Option Bool) : Except String (Option sound_effect) := do
  let r ← sfx_map_find m id variant season is_indoors is_night
  match r with
  | none => pure none
  | some bucket => pure (bucket.get? (pick % bucket.length))

/-- The ambient globals and per-call environment read by the function. -/
structure ambient_env where
  test_mode : Bool
  sound_init_success : Bool
  sound_enabled : Bool
  ambient_sound_volume : ℤ
  channel_is_playing : Bool
  pick : ℕ
deriving Repr

/-- What a call to play_ambient_variant_sound did: the resource table it left
behind and the make_audio invocation it issued, if any, as the started
channel, chunk, loop count and scaled volume. -/
structure ambient_result where
  resources : List sound_effect_resource
  started : Option (ℤ × List Frame × ℤ × ℤ)
deriving DecidableEq, Repr

/-- Translation of sfx::play_ambient_variant_sound (lines 947 to 988): early
returns for test mode, disabled sound and an already-playing channel, then
effect resolution, lazy resource load, optional pitch shift, volume scaling
and the make_audio call. -/
def play_ambient_variant_sound (env : ambient_env) (m : Map5)
    (resources : List sound_effect_resource) (decode : String → Option (List Frame))
    (id variant season : String) (is_indoors is_night : Option Bool)
    (volume : ℤ) (chan : ℤ) (pitch : ℚ) (loops : ℤ) :
    Except String ambient_result :=
  if env.test_mode then .ok ⟨resources, none⟩
  else if check_sound env.sound_init_success env.sound_enabled volume = false then
    .ok ⟨resources, none⟩
  else if env.channel_is_playing then .ok ⟨resources, none⟩
  else do
    let effq ← find_random_effect m env.pick id variant season is_indoors is_night
    match effq with
    | none => pure ⟨resources, none⟩
    | some eff =>
        let load := get_sfx_resource decode resources eff.resource_id
        let effect_to_play := if 0 < pitch then do_pitch_shift load.1 pitch else load.1
        let volume2 := eff.volume * env.ambient_sound_volume * volume / (100 * 100)
        pure ⟨load.2, some (chan, effect_to_play, loops, volume2)⟩

/-- A resolver holding one bucket under the key ("", "default", NONE, EITHER,
ANY): the entry reachable only through the id-level default. -/
def c1_map : Map5 :=
  emplace_sfx5 [] "" "default" .NONE .EITHER .ANY ⟨80, 0⟩

/-- A resolver holding one bucket under ("a", "b", NONE, EITHER, NIGHTTIME). -/
def c2_map : Map5 :=
  emplace_sfx5 [] "a" "b" .NONE .EITHER .NIGHTTIME ⟨10, 1⟩

/-! Theorems.  Helper lemmas come first; the claim theorems are marked with
their claim ids. -/

theorem lookupA_updA {α β : Type} [DecidableEq α] (m : List (α × β)) (k a : α) (d : β)
    (f : β → β) :
    lookupA (updA m k d f) a =
      if a = k then some (f ((lookupA m k).getD d)) else lookupA m a := by
  induction m with
  | nil => by_cases hak : a = k <;> simp [updA, lookupA, hak]
  | cons p rest ih =>
      obtain ⟨k0, v0⟩ := p
      by_cases hk : k = k0
      · subst hk
        by_cases hak : a = k <;> simp [updA, lookupA, hak]
      · have hk0 : ¬k0 = k := fun hx => hk hx.symm
        by_cases hak : a = k0
        · subst hak
          simp [updA, lookupA, hk, hk0]
        · simp [updA, lookupA, hk, hak, ih]

theorem find_sfx1_emplace (m : Map1) (k a : SfxTimeOfDay) (e : sound_effect) :
    find_sfx1 (emplace_sfx1 m k e) a =
      if a = k then some (((find_sfx1 m k).getD []) ++ [e]) else find_sfx1 m a := by
  unfold find_sfx1 emplace_sfx1
  rw [lookupA_updA]

theorem find_sfx2_emplace (m : Map2) (k4 a4 : SfxInOrOut) (k5 a5 : SfxTimeOfDay)
    (e : sound_effect) :
    find_sfx2 (emplace_sfx2 m k4 k5 e) a4 a5 =
      if a4 = k4 ∧ a5 = k5 then some (((find_sfx2 m k4 k5).getD []) ++ [e])
      else find_sfx2 m a4 a5 := by
  unfold find_sfx2 emplace_sfx2
  rw [lookupA_updA]
  by_cases h4 : a4 = k4
  · subst h4
    rw [if_pos rfl]
    show find_sfx1 (emplace_sfx1 ((lookupA m a4).getD []) k5 e) a5 = _
    rw [find_sfx1_emplace]
    cases hm : lookupA m a4 with
    | none => by_cases h5 : a5 = k5 <;> simp [hm, h5, find_sfx1, lookupA]
    | some sub => by_cases h5 : a5 = k5 <;> simp [hm, h5]
  · simp [h4]

theorem find_sfx3_emplace (m : Map3) (k3 a3 : SfxSeason) (k4 a4 : SfxInOrOut)
    (k5 a5 : SfxTimeOfDay) (e : sound_effect) :
    find_sfx3 (emplace_sfx3 m k3 k4 k5 e) a3 a4 a5 =
      if a3 = k3 ∧ a4 = k4 ∧ a5 = k5 then some (((find_sfx3 m k3 k4 k5).getD []) ++ [e])
      else find_sfx3 m a3 a4 a5 := by
  unfold find_sfx3 emplace_sfx3
  rw [lookupA_updA]
  by_cases h3 : a3 = k3
  · subst h3
    rw [if_pos rfl]
    show find_sfx2 (emplace_sfx2 ((lookupA m a3).getD []) k4 k5 e) a4 a5 = _
    rw [find_sfx2_emplace]
    cases hm : lookupA m a3 with
    | none =>
        by_cases h45 : a4 = k4 ∧ a5 = k5 <;>
          simp [hm, h45, find_sfx2, find_sfx1, lookupA]
    | some sub => by_cases h45 : a4 = k4 ∧ a5 = k5 <;> simp [hm, h45]
  · simp [h3]

theorem find_sfx4_emplace (m : Map4) (k2 a2 : String) (k3 a3 : SfxSeason)
    (k4 a4 : SfxInOrOut) (k5 a5 : SfxTimeOfDay) (e : sound_effect) :
    find_sfx4 (emplace_sfx4 m k2 k3 k4 k5 e) a2 a3 a4 a5 =
      if a2 = k2 ∧ a3 = k3 ∧ a4 = k4 ∧ a5 = k5 then
        some (((find_sfx4 m k2 k3 k4 k5).getD []) ++ [e])
      else find_sfx4 m a2 a3 a4 a5 := by
  unfold find_sfx4 emplace_sfx4
  rw [lookupA_updA]
  by_cases h2 : a2 = k2
  · subst h2
    rw [if_pos rfl]
    show find_sfx3 (emplace_sfx3 ((lookupA m a2).getD []) k3 k4 k5 e) a3 a4 a5 = _
    rw [find_sfx3_emplace]
    cases hm : lookupA m a2 with
    | none =>
        by_cases h345 : a3 = k3 ∧ a4 = k4 ∧ a5 = k5 <;>
          simp [hm, h345, find_sfx3, find_sfx2, find_sfx1, lookupA]
    | some sub => by_cases h345 : a3 = k3 ∧ a4 = k4 ∧ a5 = k5 <;> simp [hm, h345]
  · simp [h2]

theorem find_sfx5_emplace (m : Map5) (k1 a1 k2 a2 : String) (k3 a3 : SfxSeason)
    (k4 a4 : SfxInOrOut) (k5 a5 : SfxTimeOfDay) (e : sound_effect) :
    find_sfx5 (emplace_sfx5 m k1 k2 k3 k4 k5 e) a1 a2 a3 a4 a5 =
      if a1 = k1 ∧ a2 = k2 ∧ a3 = k3 ∧ a4 = k4 ∧ a5 = k5 then
        some (((find_sfx5 m k1 k2 k3 k4 k5).getD []) ++ [e])
      else find_sfx5 m a1 a2 a3 a4 a5 := by
  unfold find_sfx5 emplace_sfx5
  rw [lookupA_updA]
  by_cases h1 : a1 = k1
  · subst h1
    rw [if_pos rfl]
    show find_sfx4 (emplace_sfx4 ((lookupA m a1).getD []) k2 k3 k4 k5 e) a2 a3 a4 a5 = _
    rw [find_sfx4_emplace]
    cases hm : lookupA m a1 with
    | none =>
        by_cases h2345 : a2 = k2 ∧ a3 = k3 ∧ a4 = k4 ∧ a5 = k5 <;>
          simp [hm, h2345, find_sfx4, find_sfx3, find_sfx2, find_sfx1, lookupA]
    | some sub =>
        by_cases h2345 : a2 = k2 ∧ a3 = k3 ∧ a4 = k4 ∧ a5 = k5 <;> simp [hm, h2345]
  · simp [h1]

theorem find_exact_insert (m : Map5) (k a : norm_key) (e : sound_effect) :
    find_exact (insert_effect m (k, e)) a =
      if a = k then some (((find_exact m k).getD []) ++ [e]) else find_exact m a := by
  unfold find_exact insert_effect
  rw [find_sfx5_emplace]
  by_cases h : a = k
  · subst h
    simp
  · have hc : ¬(a.id = k.id ∧ a.variant = k.variant ∧ a.season = k.season ∧
        a.inout = k.inout ∧ a.tod = k.tod) := by
      intro hcomp
      apply h
      cases a
      cases k
      simp_all
    simp [hc, h]

theorem find_exact_build_aux (ops : List (norm_key × sound_effect)) :
    ∀ (m : Map5) (k : norm_key),
      find_exact (List.foldl insert_effect m ops) k =
        if effects_for ops k = [] then find_exact m k
        else some (((find_exact m k).getD []) ++ effects_for ops k) := by
  induction ops with
  | nil =>
      intro m k
      simp [effects_for]
  | cons p rest ih =>
      intro m k
      obtain ⟨k0, e0⟩ := p
      rw [List.foldl_cons, ih]
      by_cases hk : k0 = k
      · subst hk
        have heff : effects_for ((k0, e0) :: rest) k0 = e0 :: effects_for rest k0 := by
          simp [effects_for]
        rw [heff, find_exact_insert, if_pos rfl]
        by_cases hrest : effects_for rest k0 = []
        · simp [hrest]
        · simp [hrest, List.append_assoc]
      · have heff : effects_for ((k0, e0) :: rest) k = effects_for rest k := by
          simp [effects_for, hk]
        rw [heff, find_exact_insert,
          if_neg (show ¬(k = k0) from fun hkk => hk hkk.symm)]

/-- Claim C9: every inserted (key, effect) pair is found by an exact lookup
with its full key, the bucket returned for a full key is exactly the ordered
list of effects inserted under that key, and an effect in the bucket was
inserted under exactly that key. -/
theorem find_exact_build_map (ops : List (norm_key × sound_effect)) (k : norm_key)
    (e e2 : sound_effect) (he : (k, e) ∈ ops) (he2 : e2 ∈ effects_for ops k) :
    find_exact (build_map ops) k = some (effects_for ops k)
    ∧ e ∈ effects_for ops k
    ∧ (k, e2) ∈ ops := by
  have hmem : e ∈ effects_for ops k := by
    unfold effects_for
    exact List.mem_map.mpr ⟨(k, e), List.mem_filter.mpr ⟨he, by simp⟩, rfl⟩
  have hne : effects_for ops k ≠ [] := by
    intro h0
    rw [h0] at hmem
    simp at hmem
  refine ⟨?_, hmem, ?_⟩
  · rw [build_map, find_exact_build_aux, if_neg hne]
    simp [find_exact, find_sfx5, lookupA]
  · unfold effects_for at he2
    obtain ⟨p, hp, hpe⟩ := List.mem_map.mp he2
    obtain ⟨hp1, hp2⟩ := List.mem_filter.mp hp
    have hp3 : p.1 = k := by simpa using hp2
    obtain ⟨pk, pe⟩ := p
    simp only at hp3 hpe
    rw [hp3, hpe] at hp1
    exact hp1

/-- Witness for C9 on a three-insertion sequence with two keys. -/
theorem find_exact_build_map_witness :
    find_exact (build_map [(⟨"f", "default", .NONE, .EITHER, .ANY⟩, ⟨80, 0⟩),
        (⟨"f", "default", .NONE, .EITHER, .ANY⟩, ⟨90, 1⟩),
        (⟨"g", "default", .WINTER, .INDOORS, .DAYTIME⟩, ⟨50, 2⟩)])
      ⟨"f", "default", .NONE, .EITHER, .ANY⟩ =
      some (effects_for [(⟨"f", "default", .NONE, .EITHER, .ANY⟩, ⟨80, 0⟩),
        (⟨"f", "default", .NONE, .EITHER, .ANY⟩, ⟨90, 1⟩),
        (⟨"g", "default", .WINTER, .INDOORS, .DAYTIME⟩, ⟨50, 2⟩)]
        ⟨"f", "default", .NONE, .EITHER, .ANY⟩)
    ∧ (⟨80, 0⟩ : sound_effect) ∈ effects_for
        [(⟨"f", "default", .NONE, .EITHER, .ANY⟩, ⟨80, 0⟩),
         (⟨"f", "default", .NONE, .EITHER, .ANY⟩, ⟨90, 1⟩),
         (⟨"g", "default", .WINTER, .INDOORS, .DAYTIME⟩, ⟨50, 2⟩)]
        ⟨"f", "default", .NONE, .EITHER, .ANY⟩
    ∧ ((⟨"f", "default", .NONE, .EITHER, .ANY⟩ : norm_key), (⟨90, 1⟩ : sound_effect)) ∈
        [(⟨"f", "default", .NONE, .EITHER, .ANY⟩, ⟨80, 0⟩),
         (⟨"f", "default", .NONE, .EITHER, .ANY⟩, ⟨90, 1⟩),
         (⟨"g", "default", .WINTER, .INDOORS, .DAYTIME⟩, ⟨50, 2⟩)] :=
  find_exact_build_map _ _ ⟨80, 0⟩ ⟨90, 1⟩ (by decide) (by decide)

theorem amended_find1_eq (m : Map1) (t : SfxTimeOfDay) :
    amended_find1 m t = find_closest_sfx1 m t .ANY := by
  unfold amended_find1 find_closest_sfx1 chooseLevelKey probeA
  cases h1 : lookupA m t with
  | some v => simp [h1]
  | none =>
      cases h2 : lookupA m SfxTimeOfDay.ANY with
      | some w => simp [h1, h2]
      | none => simp [h1, h2]

theorem amended_find2_eq (m : Map2) (io : SfxInOrOut) (t : SfxTimeOfDay) :
    amended_find2 m io t = find_closest_sfx2 m io .EITHER t .ANY := by
  unfold amended_find2 find_closest_sfx2 chooseLevelKey probeA
  cases h1 : lookupA m io with
  | some v => simp [h1, amended_find1_eq]
  | none =>
      cases h2 : lookupA m SfxInOrOut.EITHER with
      | some w => simp [h1, h2, amended_find1_eq]
      | none => simp [h1, h2]

theorem amended_find3_eq (m : Map3) (se : SfxSeason) (io : SfxInOrOut)
    (t : SfxTimeOfDay) :
    amended_find3 m se io t = find_closest_sfx3 m se .NONE io .EITHER t .ANY := by
  unfold amended_find3 find_closest_sfx3 chooseLevelKey probeA
  cases h1 : lookupA m se with
  | some v => simp [h1, amended_find2_eq]
  | none =>
      cases h2 : lookupA m SfxSeason.NONE with
      | some w => simp [h1, h2, amended_find2_eq]
      | none => simp [h1, h2]

theorem amended_find4_eq (m : Map4) (v : String) (se : SfxSeason) (io : SfxInOrOut)
    (t : SfxTimeOfDay) :
    amended_find4 m v se io t = find_closest_sfx4 m v "default" se .NONE io .EITHER t .ANY := by
  unfold amended_find4 find_closest_sfx4 chooseLevelKey probeA
  cases h1 : lookupA m v with
  | some sub => simp [h1, amended_find3_eq]
  | none =>
      cases h2 : lookupA m "default" with
      | some w => simp [h1, h2, amended_find3_eq]
      | none => simp [h1, h2]

/-- Claim C1 (amended): the fallback lookup probes the five levels in the
fixed order id, variant, season, indoorness, timeOfDay; at each level it
commits to the supplied value when present, else to the single per-level
default (id falls back to the empty string, variant to "default", season to
NONE, indoorness to EITHER, timeOfDay to ANY), nested and independently per
level, and fails when a level misses both its value and its default. -/
theorem find_best_match_per_level (m : Map5) (id v : String) (se : SfxSeason)
    (io : SfxInOrOut) (t : SfxTimeOfDay) :
    find_closest_sfx5 m id "" v "default" se .NONE io .EITHER t .ANY =
      amended_find m id v se io t := by
  unfold amended_find find_closest_sfx5 chooseLevelKey probeA
  cases h1 : lookupA m id with
  | some sub => simp [h1, amended_find4_eq]
  | none =>
      cases h2 : lookupA m "" with
      | some w => simp [h1, h2, amended_find4_eq]
      | none => simp [h1, h2]

/-- Counterexample for C1 as frozen: the claim says the id level is never
defaulted, so this query with the unknown id "x" would have to return none;
the code falls back to the bucket stored under the empty id and returns it. -/
theorem find_best_match_id_defaulted :
    find_closest_sfx5 c1_map "x" "" "v" "default" .NONE .NONE .EITHER .EITHER .ANY .ANY =
      some [⟨80, 0⟩]
    ∧ claimed_find c1_map "x" "v" .NONE .EITHER .ANY = none := by
  constructor
  · decide
  · decide

theorem probeA_cases {α β : Type} [DecidableEq α] {m : List (α × β)} {k d : α} {v : β}
    (h : probeA m k d = some v) : lookupA m k = some v ∨ lookupA m d = some v := by
  unfold probeA at h
  cases h1 : lookupA m k with
  | some w =>
      rw [h1] at h
      exact .inl h
  | none =>
      rw [h1] at h
      exact .inr h

theorem find_closest_sfx1_path {m : Map1} {k d : SfxTimeOfDay} {b : Bucket}
    (h : find_closest_sfx1 m k d = some b) :
    ∃ c, (c = k ∨ c = d) ∧ find_sfx1 m c = some b := by
  rcases probeA_cases h with h1 | h1
  · exact ⟨k, .inl rfl, h1⟩
  · exact ⟨d, .inr rfl, h1⟩

theorem find_closest_sfx2_path {m : Map2} {k4 d4 : SfxInOrOut} {k5 d5 : SfxTimeOfDay}
    {b : Bucket} (h : find_closest_sfx2 m k4 d4 k5 d5 = some b) :
    ∃ c4 c5, (c4 = k4 ∨ c4 = d4) ∧ (c5 = k5 ∨ c5 = d5) ∧ find_sfx2 m c4 c5 = some b := by
  unfold find_closest_sfx2 at h
  cases hp : probeA m k4 d4 with
  | none => rw [hp] at h; exact absurd h (by simp)
  | some sub =>
      rw [hp] at h
      obtain ⟨c5, hc5, hf⟩ := find_closest_sfx1_path h
      rcases probeA_cases hp with h1 | h1
      · exact ⟨k4, c5, .inl rfl, hc5, by unfold find_sfx2; rw [h1]; exact hf⟩
      · exact ⟨d4, c5, .inr rfl, hc5, by unfold find_sfx2; rw [h1]; exact hf⟩

theorem find_closest_sfx3_path {m : Map3} {k3 d3 : SfxSeason} {k4 d4 : SfxInOrOut}
    {k5 d5 : SfxTimeOfDay} {b : Bucket}
    (h : find_closest_sfx3 m k3 d3 k4 d4 k5 d5 = some b) :
    ∃ c3 c4 c5, (c3 = k3 ∨ c3 = d3) ∧ (c4 = k4 ∨ c4 = d4) ∧ (c5 = k5 ∨ c5 = d5) ∧
      find_sfx3 m c3 c4 c5 = some b := by
  unfold find_closest_sfx3 at h
  cases hp : probeA m k3 d3 with
  | none => rw [hp] at h; exact absurd h (by simp)
  | some sub =>
      rw [hp] at h
      obtain ⟨c4, c5, hc4, hc5, hf⟩ := find_closest_sfx2_path h
      rcases probeA_cases hp with h1 | h1
      · exact ⟨k3, c4, c5, .inl rfl, hc4, hc5, by unfold find_sfx3; rw [h1]; exact hf⟩
      · exact ⟨d3, c4, c5, .inr rfl, hc4, hc5, by unfold find_sfx3; rw [h1]; exact hf⟩

theorem find_closest_sfx4_path {m : Map4} {k2 d2 : String} {k3 d3 : SfxSeason}
    {k4 d4 : SfxInOrOut} {k5 d5 : SfxTimeOfDay} {b : Bucket}
    (h : find_closest_sfx4 m k2 d2 k3 d3 k4 d4 k5 d5 = some b) :
    ∃ c2 c3 c4 c5, (c2 = k2 ∨ c2 = d2) ∧ (c3 = k3 ∨ c3 = d3) ∧ (c4 = k4 ∨ c4 = d4) ∧
      (c5 = k5 ∨ c5 = d5) ∧ find_sfx4 m c2 c3 c4 c5 = some b := by
  unfold find_closest_sfx4 at h
  cases hp : probeA m k2 d2 with
  | none => rw [hp] at h; exact absurd h (by simp)
  | some sub =>
      rw [hp] at h
      obtain ⟨c3, c4, c5, hc3, hc4, hc5, hf⟩ := find_closest_sfx3_path h
      rcases probeA_cases hp with h1 | h1
      · exact ⟨k2, c3, c4, c5, .inl rfl, hc3, hc4, hc5,
          by unfold find_sfx4; rw [h1]; exact hf⟩
      · exact ⟨d2, c3, c4, c5, .inr rfl, hc3, hc4, hc5,
          by unfold find_sfx4; rw [h1]; exact hf⟩

theorem find_closest_sfx5_path {m : Map5} {k1 d1 k2 d2 : String} {k3 d3 : SfxSeason}
    {k4 d4 : SfxInOrOut} {k5 d5 : SfxTimeOfDay} {b : Bucket}
    (h : find_closest_sfx5 m k1 d1 k2 d2 k3 d3 k4 d4 k5 d5 = some b) :
    ∃ c1 c2 c3 c4 c5, (c1 = k1 ∨ c1 = d1) ∧ (c2 = k2 ∨ c2 = d2) ∧ (c3 = k3 ∨ c3 = d3) ∧
      (c4 = k4 ∨ c4 = d4) ∧ (c5 = k5 ∨ c5 = d5) ∧ find_sfx5 m c1 c2 c3 c4 c5 = some b := by
  unfold find_closest_sfx5 at h
  cases hp : probeA m k1 d1 with
  | none => rw [hp] at h; exact absurd h (by simp)
  | some sub =>
      rw [hp] at h
      obtain ⟨c2, c3, c4, c5, hc2, hc3, hc4, hc5, hf⟩ := find_closest_sfx4_path h
      rcases probeA_cases hp with h1 | h1
      · exact ⟨k1, c2, c3, c4, c5, .inl rfl, hc2, hc3, hc4, hc5,
          by unfold find_sfx5; rw [h1]; exact hf⟩
      · exact ⟨d1, c2, c3, c4, c5, .inr rfl, hc2, hc3, hc4, hc5,
          by unfold find_sfx5; rw [h1]; exact hf⟩

/-- Claim C2: a bucket returned by the fallback lookup is stored under a
time-of-day key that is either the requested one or ANY, and under an
indoorness key that is either the requested one or EITHER; in particular a
NIGHTTIME request is never served from a DAYTIME bucket, a DAYTIME request
never from a NIGHTTIME bucket, and likewise for INDOORS versus OUTDOORS. -/
theorem fallback_never_crosses (m : Map5) (id v : String) (se : SfxSeason)
    (ioq : SfxInOrOut) (tq : SfxTimeOfDay) (b : Bucket)
    (h : find_closest_sfx5 m id "" v "default" se .NONE ioq .EITHER tq .ANY = some b) :
    ∃ c1 c2 c3 c4 c5, find_sfx5 m c1 c2 c3 c4 c5 = some b
      ∧ (c4 = ioq ∨ c4 = .EITHER) ∧ (c5 = tq ∨ c5 = .ANY)
      ∧ (tq = .NIGHTTIME → c5 ≠ .DAYTIME) ∧ (tq = .DAYTIME → c5 ≠ .NIGHTTIME)
      ∧ (ioq = .INDOORS → c4 ≠ .OUTDOORS) ∧ (ioq = .OUTDOORS → c4 ≠ .INDOORS) := by
  obtain ⟨c1, c2, c3, c4, c5, _, _, _, hc4, hc5, hf⟩ := find_closest_sfx5_path h
  refine ⟨c1, c2, c3, c4, c5, hf, hc4, hc5, ?_, ?_, ?_, ?_⟩
  · rintro rfl
    rcases hc5 with rfl | rfl <;> simp
  · rintro rfl
    rcases hc5 with rfl | rfl <;> simp
  · rintro rfl
    rcases hc4 with rfl | rfl <;> simp
  · rintro rfl
    rcases hc4 with rfl | rfl <;> simp

/-- Witness for C2: a NIGHTTIME query served by a NIGHTTIME bucket. -/
theorem fallback_never_crosses_witness :
    ∃ c1 c2 c3 c4 c5, find_sfx5 c2_map c1 c2 c3 c4 c5 = some [⟨10, 1⟩]
      ∧ (c4 = SfxInOrOut.EITHER ∨ c4 = SfxInOrOut.EITHER)
      ∧ (c5 = SfxTimeOfDay.NIGHTTIME ∨ c5 = SfxTimeOfDay.ANY)
      ∧ (SfxTimeOfDay.NIGHTTIME = SfxTimeOfDay.NIGHTTIME → c5 ≠ SfxTimeOfDay.DAYTIME)
      ∧ (SfxTimeOfDay.NIGHTTIME = SfxTimeOfDay.DAYTIME → c5 ≠ SfxTimeOfDay.NIGHTTIME)
      ∧ (SfxInOrOut.EITHER = SfxInOrOut.INDOORS → c4 ≠ SfxInOrOut.OUTDOORS)
      ∧ (SfxInOrOut.EITHER = SfxInOrOut.OUTDOORS → c4 ≠ SfxInOrOut.INDOORS) :=
  fallback_never_crosses c2_map "a" "b" .NONE .EITHER .NIGHTTIME [⟨10, 1⟩] (by decide)

/-- Claim C10: when the requested channel is already playing, the call returns
before resolving an effect or starting playback, and the resource table is
left untouched: the result is exactly the no-op result. -/
theorem play_ambient_skips_when_channel_playing (env : ambient_env) (m : Map5)
    (resources : List sound_effect_resource) (decode : String → Option (List Frame))
    (id variant season : String) (is_indoors is_night : Option Bool)
    (volume chan : ℤ) (pitch : ℚ) (loops : ℤ)
    (h : env.channel_is_playing = true) :
    play_ambient_variant_sound env m resources decode id variant season
      is_indoors is_night volume chan pitch loops = .ok ⟨resources, none⟩ := by
  unfold play_ambient_variant_sound
  by_cases h1 : env.test_mode
  · simp [h1]
  · by_cases h2 : check_sound env.sound_init_success env.sound_enabled volume = false
    · simp [h1, h2]
    · simp [h1, h2, h]

/-- Witness for C10 at a concrete environment with the channel playing. -/
theorem play_ambient_skips_when_channel_playing_witness :
    play_ambient_variant_sound ⟨false, true, true, 100, true, 0⟩ [] [] no_decode
      "scream" "default" "" none none 100 1 0 0 = .ok ⟨[], none⟩ :=
  play_ambient_skips_when_channel_playing ⟨false, true, true, 100, true, 0⟩ [] []
    no_decode "scream" "default" "" none none 100 1 0 0 rfl

/-- Claim C8: get_sfx_resource is total; repeating a call returns the cached
result of the first call and leaves the table unchanged, the chunk it cached
is exactly the buffer returned, and a failed decode yields the valid empty
null chunk instead of an error. -/
theorem get_sfx_resource_cached (decode : String → Option (List Frame))
    (resources : List sound_effect_resource) (rid : ℕ)
    (h : rid < resources.length) :
    get_sfx_resource decode (get_sfx_resource decode resources rid).2 rid =
      get_sfx_resource decode resources rid
    ∧ (((get_sfx_resource decode resources rid).2.getD rid ⟨"", none⟩).chunk =
        some (get_sfx_resource decode resources rid).1)
    ∧ ((resources.getD rid ⟨"", none⟩).chunk = none →
        decode (resources.getD rid ⟨"", none⟩).path = none →
        (get_sfx_resource decode resources rid).1 = make_null_chunk) := by
  have heq : ∀ (res : List sound_effect_resource),
      get_sfx_resource decode res rid =
        match (res.getD rid ⟨"", none⟩).chunk with
        | some c => (c, res)
        | none =>
            (load_chunk decode (res.getD rid ⟨"", none⟩).path,
             res.set rid ⟨(res.getD rid ⟨"", none⟩).path,
               some (load_chunk decode (res.getD rid ⟨"", none⟩).path)⟩) :=
    fun _ => rfl
  rcases hr : resources.getD rid ⟨"", none⟩ with ⟨path, chunk⟩
  cases chunk with
  | some c =>
      have h1 : get_sfx_resource decode resources rid = (c, resources) := by
        rw [heq, hr]
      refine ⟨?_, ?_, ?_⟩
      · rw [h1]
        show get_sfx_resource decode resources rid = (c, resources)
        exact h1
      · rw [h1]
        show (resources.getD rid ⟨"", none⟩).chunk = some c
        rw [hr]
      · intro hnone
        simp at hnone
  | none =>
      have h1 : get_sfx_resource decode resources rid =
          (load_chunk decode path,
           resources.set rid ⟨path, some (load_chunk decode path)⟩) := by
        rw [heq, hr]
      have hset : ((resources.set rid ⟨path, some (load_chunk decode path)⟩).getD rid
          ⟨"", none⟩) = ⟨path, some (load_chunk decode path)⟩ := by
        rw [List.getD_eq_getElem?_getD, List.getElem?_set_eq_of_lt _ h]
        rfl
      refine ⟨?_, ?_, ?_⟩
      · rw [h1]
        show get_sfx_resource decode
            (resources.set rid ⟨path, some (load_chunk decode path)⟩) rid = _
        rw [heq, hset]
      · rw [h1]
        show ((resources.set rid ⟨path, some (load_chunk decode path)⟩).getD rid
            ⟨"", none⟩).chunk = some (load_chunk decode path)
        rw [hset]
      · rw [h1]
        intro _ hdec
        show load_chunk decode path = make_null_chunk
        simp only [sound_effect_resource.path] at hdec
        simp [load_chunk, hdec]

/-- Witness for C8: a one-entry table whose decode fails. -/
theorem get_sfx_resource_cached_witness :
    get_sfx_resource no_decode (get_sfx_resource no_decode [⟨"a", none⟩] 0).2 0 =
      get_sfx_resource no_decode [⟨"a", none⟩] 0
    ∧ (((get_sfx_resource no_decode [⟨"a", none⟩] 0).2.getD 0 ⟨"", none⟩).chunk =
        some (get_sfx_resource no_decode [⟨"a", none⟩] 0).1)
    ∧ (([(⟨"a", none⟩ : sound_effect_resource)].getD 0 ⟨"", none⟩).chunk = none →
        no_decode (([(⟨"a", none⟩ : sound_effect_resource)].getD 0 ⟨"", none⟩).path) = none →
        (get_sfx_resource no_decode [⟨"a", none⟩] 0).1 = make_null_chunk) :=
  get_sfx_resource_cached no_decode [⟨"a", none⟩] 0 (by decide)

theorem qtrunc_nonneg_eq_floor {x : ℚ} (h : 0 ≤ x) : qtrunc x = ⌊x⌋ :=
  if_pos h

theorem qfmod_nonneg_bounds {x y : ℚ} (hx : 0 ≤ x) (hy : 0 < y) :
    0 ≤ qfmod x y ∧ qfmod x y < y := by
  have hkey : qfmod x y = y * Int.fract (x / y) := by
    unfold qfmod
    rw [qtrunc_nonneg_eq_floor (div_nonneg hx hy.le), Int.fract, mul_sub]
    have hxy : y * (x / y) = x := by
      field_simp
    rw [hxy]
  constructor
  · rw [hkey]
    exact mul_nonneg hy.le (Int.fract_nonneg _)
  · rw [hkey]
    calc y * Int.fract (x / y) < y * 1 :=
          mul_lt_mul_of_pos_left (Int.fract_lt_one _) hy
      _ = y := mul_one y

theorem qfmod_self {x : ℚ} (hx : 0 < x) : qfmod x x = 0 := by
  unfold qfmod qtrunc
  rw [div_self hx.ne']
  norm_num

theorem step_state_eq_spec (n : ℕ) (s : ℚ) (st : handler_state) :
    step_state n s st = spec_advance n s st := by
  unfold step_state spec_advance
  by_cases hl : 0 ≤ st.loops_remaining <;>
    by_cases hc : (n : ℚ) ≤ st.current_sample_index + s <;>
      simp [hl, hc, one_mul]

theorem resample_go_zero (src : List Frame) (n : ℕ) (s : ℚ) (st : handler_state) :
    resample_go src n s 0 st = ⟨[], [], st⟩ := rfl

theorem resample_go_succ (src : List Frame) (n : ℕ) (s : ℚ) (fuel : ℕ)
    (st : handler_state) :
    resample_go src n s (fuel + 1) st =
      if st.current_sample_index < (n : ℚ) then
        ⟨frame_at src n st :: (resample_go src n s fuel (step_state n s st)).out,
         (if st.loops_remaining = -1 then (resample_go src n s fuel (step_state n s st)).reads
          else (low_index st, high_index n st) ::
            (resample_go src n s fuel (step_state n s st)).reads),
         (resample_go src n s fuel (step_state n s st)).final⟩
      else ⟨[], [], st⟩ := rfl

theorem resample_go_silent (src : List Frame) (n : ℕ) (s : ℚ) :
    ∀ (fuel : ℕ) (st : handler_state), st.loops_remaining = -1 →
      (resample_go src n s fuel st).out =
        List.replicate (resample_go src n s fuel st).out.length (0, 0) := by
  intro fuel
  induction fuel with
  | zero =>
      intro st h
      rw [resample_go_zero]
      rfl
  | succ k ih =>
      intro st h
      rw [resample_go_succ]
      by_cases hc : st.current_sample_index < (n : ℚ)
      · rw [if_pos hc]
        have hframe : frame_at src n st = (0, 0) := by
          unfold frame_at
          rw [if_pos h]
          simp [interp_sample, qtrunc]
        have hstep : (step_state n s st).loops_remaining = -1 := by
          simp only [step_state]
          split
          · rename_i hcond
            rw [h] at hcond
            norm_num at hcond
          · exact h
        rw [hframe]
        have hrest := ih (step_state n s st) hstep
        dsimp only
        rw [List.length_cons, List.replicate_succ]
        rw [← hrest]
      · rw [if_neg hc]
        rfl

theorem resample_reads_bounded (src : List Frame) (n : ℕ) (s : ℚ) :
    ∀ (fuel : ℕ) (st : handler_state), 0 ≤ s → 0 ≤ st.current_sample_index →
      reads_ok n (resample_go src n s fuel st).reads := by
  intro fuel
  induction fuel with
  | zero =>
      intro st hs hc
      rw [resample_go_zero]
      intro p hp
      simp at hp
  | succ k ih =>
      intro st hs hc
      rw [resample_go_succ]
      by_cases hlt : st.current_sample_index < (n : ℚ)
      · rw [if_pos hlt]
        have hn : 0 < n := by
          have hq : (0 : ℚ) < (n : ℚ) := lt_of_le_of_lt hc hlt
          exact_mod_cast hq
        have hlow1 : 0 ≤ low_index st := by
          unfold low_index
          exact Int.le_floor.mpr (by exact_mod_cast hc)
        have hlow2 : low_index st < (n : ℤ) := by
          unfold low_index
          exact Int.floor_lt.mpr (by exact_mod_cast hlt)
        have hhigh1 : 0 ≤ high_index n st := by
          unfold high_index
          split
          · norm_num
          · exact Int.ceil_nonneg hc
        have hhigh2 : high_index n st < (n : ℤ) := by
          unfold high_index
          split
          · exact_mod_cast hn
          · rename_i hne
            have hle : ⌈st.current_sample_index⌉ ≤ (n : ℤ) :=
              Int.ceil_le.mpr (by exact_mod_cast hlt.le)
            exact lt_of_le_of_ne hle hne
        have hnext : 0 ≤ (step_state n s st).current_sample_index := by
          by_cases hcond : 0 ≤ st.loops_remaining ∧
              (n : ℚ) ≤ st.current_sample_index + 1 * s
          · have hss : step_state n s st =
                ⟨qfmod (st.current_sample_index + 1 * s) (n : ℚ),
                  st.loops_remaining - 1⟩ := by
              simp only [step_state, if_pos hcond]
            rw [hss]
            refine (qfmod_nonneg_bounds ?_ (by exact_mod_cast hn)).1
            rw [one_mul]
            exact add_nonneg hc hs
          · have hss : step_state n s st =
                ⟨st.current_sample_index + 1 * s, st.loops_remaining⟩ := by
              simp only [step_state, if_neg hcond]
            rw [hss]
            show 0 ≤ st.current_sample_index + 1 * s
            rw [one_mul]
            exact add_nonneg hc hs
        have hrest := ih (step_state n s st) hs hnext
        by_cases hsent : st.loops_remaining = -1
        · rw [if_pos hsent]
          exact hrest
        · rw [if_neg hsent]
          intro p hp
          rcases List.mem_cons.mp hp with hpe | hp2
          · rw [hpe]
            exact ⟨hlow1, hlow2, hhigh1, hhigh2⟩
          · exact hrest p hp2
      · rw [if_neg hlt]
        intro p hp
        simp at hp

/-- Claim C4: the resample loop only reads source indices inside the buffer:
the low index always lies in [0, n) and the high index, redirected to 0 when
it equals n, lies in [0, n) as well, for every output length, start state with
a nonnegative position, and nonnegative speed multiplier (including values
greater than 1); the per-buffer callback therefore never reads past the end
of its source buffer. -/
theorem resample_never_reads_out_of_bounds (src : List Frame) (n out_len fuel : ℕ)
    (s : ℚ) (st st2 : handler_state) (ts : Bool)
    (hs : 0 ≤ s) (hc : 0 ≤ st.current_sample_index)
    (hc2 : 0 ≤ st2.current_sample_index) :
    reads_ok n (resample_go src n s fuel st).reads
    ∧ reads_ok src.length ((slowed_time_effect ts src out_len st2).1.reads) := by
  constructor
  · exact resample_reads_bounded src n s fuel st hs hc
  · have hsp : 0 ≤ (if ts then sound_speed_factor else (1 : ℚ)) := by
      cases ts <;> norm_num [sound_speed_factor]
    exact resample_reads_bounded src src.length
      (if ts then sound_speed_factor else 1) out_len st2 hsp hc2

/-- Witness for C4 at a two-frame source, speed 3 and a fresh state. -/
theorem resample_never_reads_out_of_bounds_witness :
    reads_ok 2 (resample_go [(1, 1), (2, 2)] 2 3 4 ⟨0, 0⟩).reads
    ∧ reads_ok (List.length [((1 : ℤ), (1 : ℤ)), (2, 2)])
        ((slowed_time_effect true [(1, 1), (2, 2)] 4 ⟨0, 0⟩).1.reads) :=
  resample_never_reads_out_of_bounds [(1, 1), (2, 2)] 2 4 4 3 ⟨0, 0⟩ ⟨0, 0⟩ true
    (by norm_num) le_rfl le_rfl

/-- Claim C3: the callback recomputes the playback-speed multiplier on every
invocation as 0.25 when the time-slowed predicate holds and 1.0 otherwise;
each produced output frame advances the fractional position by that
multiplier, and on reaching or exceeding the source length the loop counter
is decremented and the position wrapped by fmod, preserving the remainder
(the spec_advance step); after the pass a halt is requested exactly when the
loop counter has gone negative, and with the counter at the -1 sentinel the
callback produces only silent frames. -/
theorem slowed_time_effect_spec (ts : Bool) (src : List Frame) (out_len fuel : ℕ)
    (st st1 st2 : handler_state) (s : ℚ)
    (h1 : st1.current_sample_index < (src.length : ℚ))
    (h2 : st2.loops_remaining = -1) :
    (slowed_time_effect ts src out_len st).1 =
        resample_go src src.length (if ts then 1 / 4 else 1) out_len st
    ∧ (slowed_time_effect ts src out_len st).2 =
        decide ((resample_go src src.length (if ts then 1 / 4 else 1)
          out_len st).final.loops_remaining < 0)
    ∧ resample_go src src.length s (fuel + 1) st1 =
        ⟨frame_at src src.length st1 ::
            (resample_go src src.length s fuel (spec_advance src.length s st1)).out,
          (if st1.loops_remaining = -1 then
            (resample_go src src.length s fuel (spec_advance src.length s st1)).reads
          else (low_index st1, high_index src.length st1) ::
            (resample_go src src.length s fuel (spec_advance src.length s st1)).reads),
          (resample_go src src.length s fuel (spec_advance src.length s st1)).final⟩
    ∧ (resample_go src src.length s fuel st2).out =
        List.replicate (resample_go src src.length s fuel st2).out.length (0, 0) := by
  refine ⟨rfl, rfl, ?_, resample_go_silent src src.length s fuel st2 h2⟩
  rw [resample_go_succ, if_pos h1, step_state_eq_spec]

/-- Witness for C3 at a concrete two-frame source. -/
theorem slowed_time_effect_spec_witness :
    (slowed_time_effect false [((2 : ℤ), (2 : ℤ)), (4, 4)] 1 ⟨0, 0⟩).1 =
        resample_go [(2, 2), (4, 4)] (List.length [((2 : ℤ), (2 : ℤ)), (4, 4)])
          (if false then 1 / 4 else 1) 1 ⟨0, 0⟩
    ∧ (slowed_time_effect false [((2 : ℤ), (2 : ℤ)), (4, 4)] 1 ⟨0, 0⟩).2 =
        decide ((resample_go [(2, 2), (4, 4)] (List.length [((2 : ℤ), (2 : ℤ)), (4, 4)])
          (if false then 1 / 4 else 1) 1 ⟨0, 0⟩).final.loops_remaining < 0)
    ∧ resample_go [(2, 2), (4, 4)] (List.length [((2 : ℤ), (2 : ℤ)), (4, 4)]) 1 (1 + 1) ⟨0, 0⟩ =
        ⟨frame_at [(2, 2), (4, 4)] (List.length [((2 : ℤ), (2 : ℤ)), (4, 4)]) ⟨0, 0⟩ ::
            (resample_go [(2, 2), (4, 4)] (List.length [((2 : ℤ), (2 : ℤ)), (4, 4)]) 1 1
              (spec_advance (List.length [((2 : ℤ), (2 : ℤ)), (4, 4)]) 1 ⟨0, 0⟩)).out,
          (if (⟨0, 0⟩ : handler_state).loops_remaining = -1 then
            (resample_go [(2, 2), (4, 4)] (List.length [((2 : ℤ), (2 : ℤ)), (4, 4)]) 1 1
              (spec_advance (List.length [((2 : ℤ), (2 : ℤ)), (4, 4)]) 1 ⟨0, 0⟩)).reads
          else (low_index ⟨0, 0⟩, high_index (List.length [((2 : ℤ), (2 : ℤ)), (4, 4)]) ⟨0, 0⟩) ::
            (resample_go [(2, 2), (4, 4)] (List.length [((2 : ℤ), (2 : ℤ)), (4, 4)]) 1 1
              (spec_advance (List.length [((2 : ℤ), (2 : ℤ)), (4, 4)]) 1 ⟨0, 0⟩)).reads),
          (resample_go [(2, 2), (4, 4)] (List.length [((2 : ℤ), (2 : ℤ)), (4, 4)]) 1 1
            (spec_advance (List.length [((2 : ℤ), (2 : ℤ)), (4, 4)]) 1 ⟨0, 0⟩)).final⟩
    ∧ (resample_go [(2, 2), (4, 4)] (List.length [((2 : ℤ), (2 : ℤ)), (4, 4)]) 1 1
          ⟨0, -1⟩).out =
        List.replicate (resample_go [(2, 2), (4, 4)]
          (List.length [((2 : ℤ), (2 : ℤ)), (4, 4)]) 1 1 ⟨0, -1⟩).out.length (0, 0) :=
  slowed_time_effect_spec false [(2, 2), (4, 4)] 1 1 ⟨0, 0⟩ ⟨0, 0⟩ ⟨0, -1⟩ 1
    (by norm_num) rfl

theorem resample_one_pass (src : List Frame) (n : ℕ) :
    ∀ (k j : ℕ), j + k = n → 1 ≤ k →
      (resample_go src n 1 k ⟨(j : ℚ), 0⟩).final = ⟨0, -1⟩
      ∧ (resample_go src n 1 k ⟨(j : ℚ), 0⟩).out.length = k := by
  intro k
  induction k with
  | zero =>
      intro j hjk hk
      omega
  | succ k2 ih =>
      intro j hjk _
      have hjn : j < n := by omega
      have hj : (j : ℚ) < (n : ℚ) := by exact_mod_cast hjn
      rw [resample_go_succ, if_pos hj]
      rcases Nat.eq_zero_or_pos k2 with hk2 | hk2
      · subst hk2
        have hjn1 : j + 1 = n := by omega
        have hnq : ((j : ℚ) + 1 * 1) = (n : ℚ) := by
          rw [one_mul]
          exact_mod_cast hjn1
        have hstep : step_state n 1 ⟨(j : ℚ), 0⟩ = ⟨0, -1⟩ := by
          simp only [step_state]
          rw [if_pos ⟨le_refl 0, le_of_eq hnq.symm⟩]
          rw [hnq, qfmod_self (by exact_mod_cast (by omega : 0 < n))]
          rfl
        rw [hstep, resample_go_zero]
        exact ⟨rfl, rfl⟩
      · have hjn1 : j + 1 < n := by omega
        have hnq : ((j : ℚ) + 1 * 1) = ((j + 1 : ℕ) : ℚ) := by
          push_cast
          ring
        have hstep : step_state n 1 ⟨(j : ℚ), 0⟩ = ⟨((j + 1 : ℕ) : ℚ), 0⟩ := by
          simp only [step_state]
          rw [if_neg]
          · rw [hnq]
          · rintro ⟨-, habs⟩
            rw [hnq] at habs
            have : (n : ℚ) ≤ ((j + 1 : ℕ) : ℚ) := habs
            have : n ≤ j + 1 := by exact_mod_cast this
            omega
        rw [hstep]
        obtain ⟨hfin, hlen⟩ := ih (j + 1) (by omega) hk2
        refine ⟨hfin, ?_⟩
        dsimp only
        rw [List.length_cons, hlen]

theorem resample_partial (src : List Frame) (n : ℕ) :
    ∀ (k j : ℕ), j + k < n →
      (resample_go src n 1 k ⟨(j : ℚ), 0⟩).final = ⟨((j + k : ℕ) : ℚ), 0⟩ := by
  intro k
  induction k with
  | zero =>
      intro j hjk
      rw [resample_go_zero]
      simp
  | succ k2 ih =>
      intro j hjk
      have hjn : j < n := by omega
      have hj : (j : ℚ) < (n : ℚ) := by exact_mod_cast hjn
      rw [resample_go_succ, if_pos hj]
      have hnq : ((j : ℚ) + 1 * 1) = ((j + 1 : ℕ) : ℚ) := by
        push_cast
        ring
      have hstep : step_state n 1 ⟨(j : ℚ), 0⟩ = ⟨((j + 1 : ℕ) : ℚ), 0⟩ := by
        simp only [step_state]
        rw [if_neg]
        · rw [hnq]
        · rintro ⟨-, habs⟩
          rw [hnq] at habs
          have : n ≤ j + 1 := by exact_mod_cast habs
          omega
      rw [hstep]
      dsimp only
      have heq : j + 1 + k2 = j + (k2 + 1) := by omega
      rw [← heq]
      exact ih (j + 1) (by omega)

theorem resample_loops_lower (src : List Frame) (n : ℕ) (s : ℚ) :
    ∀ (fuel : ℕ) (st : handler_state),
      st.loops_remaining - fuel ≤ (resample_go src n s fuel st).final.loops_remaining := by
  intro fuel
  induction fuel with
  | zero =>
      intro st
      rw [resample_go_zero]
      simp
  | succ k ih =>
      intro st
      rw [resample_go_succ]
      by_cases hlt : st.current_sample_index < (n : ℚ)
      · rw [if_pos hlt]
        have hstepl : st.loops_remaining - 1 ≤ (step_state n s st).loops_remaining := by
          simp only [step_state]
          split
          · simp
          · simp
        have := ih (step_state n s st)
        dsimp only
        push_cast
        omega
      · rw [if_neg hlt]
        dsimp only
        push_cast
        omega

/-- Claim C5: a voice started by make_audio with loopCount 0 stores loop
budget 0, produces exactly one full traversal of the source and only then
requests a halt (an invocation covering the whole source halts with the
counter at -1 and emits one frame per source sample; any shorter invocation
does not halt); loopCount -1 is stored as the large-but-finite budget 10000,
so the callback cannot halt through its own counter within any invocation of
at most 10000 output frames, while the loop itself always terminates. -/
theorem make_audio_loop_semantics (src : List Frame) (k out_len : ℕ) (ts : Bool)
    (hsrc : 0 < src.length) (hk : k < src.length) (hout : out_len ≤ 10000) :
    (slowed_time_effect false src src.length (make_audio_state 0)).2 = true
    ∧ (slowed_time_effect false src src.length (make_audio_state 0)).1.out.length =
        src.length
    ∧ (slowed_time_effect false src src.length (make_audio_state 0)).1.final = ⟨0, -1⟩
    ∧ (slowed_time_effect false src k (make_audio_state 0)).2 = false
    ∧ make_audio_loops (-1) = 10000
    ∧ (slowed_time_effect ts src out_len (make_audio_state (-1))).2 = false := by
  have hstate0 : make_audio_state 0 = ⟨((0 : ℕ) : ℚ), 0⟩ := by
    simp [make_audio_state, make_audio_loops]
  have hone := resample_one_pass src src.length src.length 0 (by omega) (by omega)
  have hpart := resample_partial src src.length k 0 (by omega)
  refine ⟨?_, ?_, ?_, ?_, ?_, ?_⟩
  · show decide ((resample_go src src.length 1 src.length (make_audio_state 0)).final.loops_remaining < 0) = true
    rw [hstate0, hone.1]
    decide
  · show (resample_go src src.length 1 src.length (make_audio_state 0)).out.length = src.length
    rw [hstate0, hone.2]
  · show (resample_go src src.length 1 src.length (make_audio_state 0)).final = ⟨0, -1⟩
    rw [hstate0, hone.1]
  · show decide ((resample_go src src.length 1 k (make_audio_state 0)).final.loops_remaining < 0) = false
    rw [hstate0, hpart]
    rfl
  · rfl
  · show decide ((resample_go src src.length (if ts then sound_speed_factor else 1)
        out_len (make_audio_state (-1))).final.loops_remaining < 0) = false
    have hlow := resample_loops_lower src src.length
      (if ts then sound_speed_factor else 1) out_len (make_audio_state (-1))
    have hst : (make_audio_state (-1)).loops_remaining = 10000 := rfl
    rw [hst] at hlow
    rw [decide_eq_false_iff_not]
    omega

/-- Witness for C5 at a concrete two-frame source. -/
theorem make_audio_loop_semantics_witness :
    (slowed_time_effect false [((3 : ℤ), (3 : ℤ)), (6, 6)]
        (List.length [((3 : ℤ), (3 : ℤ)), (6, 6)]) (make_audio_state 0)).2 = true
    ∧ (slowed_time_effect false [((3 : ℤ), (3 : ℤ)), (6, 6)]
        (List.length [((3 : ℤ), (3 : ℤ)), (6, 6)]) (make_audio_state 0)).1.out.length =
        List.length [((3 : ℤ), (3 : ℤ)), (6, 6)]
    ∧ (slowed_time_effect false [((3 : ℤ), (3 : ℤ)), (6, 6)]
        (List.length [((3 : ℤ), (3 : ℤ)), (6, 6)]) (make_audio_state 0)).1.final = ⟨0, -1⟩
    ∧ (slowed_time_effect false [((3 : ℤ), (3 : ℤ)), (6, 6)] 1 (make_audio_state 0)).2 = false
    ∧ make_audio_loops (-1) = 10000
    ∧ (slowed_time_effect true [((3 : ℤ), (3 : ℤ)), (6, 6)] 7 (make_audio_state (-1))).2 = false :=
  make_audio_loop_semantics [(3, 3), (6, 6)] 1 7 true (by decide) (by decide) (by decide)

/-- Counterexample for C6 as frozen: a three-frame source at pitch factor 1/2
yields 1 output frame, the truncation of 1.5, where round(3 * 0.5) = 2; the
output length is therefore not round(n * p). -/
theorem do_pitch_shift_length_truncates :
    (do_pitch_shift [((0 : ℤ), (0 : ℤ)), (0, 0), (0, 0)] (1 / 2)).length = 1
    ∧ round ((List.length [((0 : ℤ), (0 : ℤ)), (0, 0), (0, 0)] : ℚ) * (1 / 2)) = 2 := by
  constructor
  · unfold do_pitch_shift
    rw [List.length_map, List.length_range]
    norm_num [qtrunc]
  · have h3 : (List.length [((0 : ℤ), (0 : ℤ)), (0, 0), (0, 0)] : ℚ) = 3 := by
      norm_num
    rw [h3, round_eq]
    norm_num

/-- Claim C6 (amended): for every source of n frames and pitch factor p > 0
the output length is the truncation (floor) of n * p, which always lies
within one frame of round(n * p). -/
theorem do_pitch_shift_length (src : List Frame) (p : ℚ) (hp : 0 < p) :
    ((do_pitch_shift src p).length : ℤ) = ⌊(src.length : ℚ) * p⌋
    ∧ |((do_pitch_shift src p).length : ℤ) - round ((src.length : ℚ) * p)| ≤ 1 := by
  have hnn : (0 : ℚ) ≤ (src.length : ℚ) * p := by positivity
  have hfl : 0 ≤ ⌊(src.length : ℚ) * p⌋ := Int.floor_nonneg.mpr hnn
  have hlen : ((do_pitch_shift src p).length : ℤ) = ⌊(src.length : ℚ) * p⌋ := by
    unfold do_pitch_shift
    rw [List.length_map, List.length_range, qtrunc_nonneg_eq_floor hnn,
      Int.toNat_of_nonneg hfl]
  refine ⟨hlen, ?_⟩
  rw [hlen]
  have hx := Int.lt_floor_add_one ((src.length : ℚ) * p)
  have h1 : ⌊(src.length : ℚ) * p⌋ ≤ round ((src.length : ℚ) * p) := by
    rw [round_eq]
    exact Int.floor_mono (by linarith)
  have h2 : round ((src.length : ℚ) * p) ≤ ⌊(src.length : ℚ) * p⌋ + 1 := by
    rw [round_eq]
    have hlt : ⌊(src.length : ℚ) * p + 1 / 2⌋ < ⌊(src.length : ℚ) * p⌋ + 2 := by
      rw [Int.floor_lt]
      push_cast
      linarith
    omega
  rw [abs_le]
  constructor <;> omega

/-- Witness for C6 at a one-frame source and pitch factor 1/2. -/
theorem do_pitch_shift_length_witness :
    ((do_pitch_shift [((7 : ℤ), (7 : ℤ))] (1 / 2)).length : ℤ) =
      ⌊(List.length [((7 : ℤ), (7 : ℤ))] : ℚ) * (1 / 2)⌋
    ∧ |((do_pitch_shift [((7 : ℤ), (7 : ℤ))] (1 / 2)).length : ℤ) -
        round ((List.length [((7 : ℤ), (7 : ℤ))] : ℚ) * (1 / 2))| ≤ 1 :=
  do_pitch_shift_length [((7 : ℤ), (7 : ℤ))] (1 / 2) (by norm_num)

theorem window_members_eq (n lo hi : ℕ) (h1 : lo ≤ hi) (h2 : hi < n) :
    window_members n lo hi = (List.range (hi + 1 - lo)).map (fun j => lo + j) := by
  unfold window_members
  have hsplit : (List.range n).filter (fun j => decide (lo ≤ j) && decide (j ≤ hi)) =
      ((List.range n).filter (fun j => decide (lo ≤ j))).filter
        (fun j => decide (j ≤ hi)) := by
    rw [List.filter_filter]
    apply List.filter_congr
    intro a _
    rw [Bool.and_comm]
  rw [hsplit, ← List.Ico.zero_bot]
  rw [List.Ico.filter_le]
  have hmax : max 0 lo = lo := by omega
  rw [hmax]
  have hconv : (List.Ico lo n).filter (fun j => decide (j ≤ hi)) =
      (List.Ico lo n).filter (fun j => decide (j < hi + 1)) := by
    apply List.filter_congr
    intro a _
    simp [Nat.lt_succ_iff]
  rw [hconv, List.Ico.filter_lt]
  have hmin : min n (hi + 1) = hi + 1 := by omega
  rw [hmin]
  have hz : (List.range (hi + 1 - lo)).map (fun j => lo + j) =
      (List.Ico 0 (hi + 1 - lo)).map (fun j => lo + j) := by
    rw [List.Ico.zero_bot]
  rw [hz]
  have hadd := List.Ico.map_add 0 (hi + 1 - lo) lo
  rw [Nat.zero_add] at hadd
  have harith : hi + 1 - lo + lo = hi + 1 := by omega
  rw [harith] at hadd
  exact hadd.symm

theorem pitch_window_bounds (src : List Frame) (p : ℚ) (i : ℕ)
    (hi : i < (qtrunc ((src.length : ℚ) * p)).toNat) :
    pitch_begin src.length ((qtrunc ((src.length : ℚ) * p)).toNat) i ≤
      pitch_end src.length ((qtrunc ((src.length : ℚ) * p)).toNat) i
    ∧ pitch_end src.length ((qtrunc ((src.length : ℚ) * p)).toNat) i < src.length := by
  set n := src.length with hn
  set M := (qtrunc ((n : ℚ) * p)).toNat with hM
  have hM1 : 1 ≤ M := by omega
  have hn1 : 1 ≤ n := by
    by_contra h0
    have hn0 : n = 0 := by omega
    rw [hn0] at hM
    norm_num [qtrunc] at hM
    omega
  have hMq : (0 : ℚ) < (M : ℚ) := by exact_mod_cast hM1
  have hnq : (0 : ℚ) < (n : ℚ) := by exact_mod_cast hn1
  have hpr : (0 : ℚ) < (M : ℚ) / (n : ℚ) := div_pos hMq hnq
  have hb_lt : pitch_begin n M i < n := by
    unfold pitch_begin
    have hdiv : (i : ℚ) / ((M : ℚ) / (n : ℚ)) < (n : ℚ) := by
      rw [div_lt_iff₀ hpr]
      have hcan : (n : ℚ) * ((M : ℚ) / (n : ℚ)) = (M : ℚ) := by
        field_simp
      rw [hcan]
      exact_mod_cast hi
    have hfloor : qtrunc ((i : ℚ) / ((M : ℚ) / (n : ℚ))) < (n : ℤ) := by
      rw [qtrunc_nonneg_eq_floor (by positivity)]
      exact Int.floor_lt.mpr (by exact_mod_cast hdiv)
    omega
  have hmono : qtrunc ((i : ℚ) / ((M : ℚ) / (n : ℚ))) ≤
      qtrunc (((i : ℚ) + 1) / ((M : ℚ) / (n : ℚ))) := by
    rw [qtrunc_nonneg_eq_floor (by positivity), qtrunc_nonneg_eq_floor (by positivity)]
    apply Int.floor_mono
    gcongr
    linarith
  have hbe0 : pitch_begin n M i ≤ (qtrunc (((i : ℚ) + 1) / ((M : ℚ) / (n : ℚ)))).toNat := by
    unfold pitch_begin
    omega
  simp only [pitch_end]
  by_cases hcond : 0 < (qtrunc (((i : ℚ) + 1) / ((M : ℚ) / (n : ℚ)))).toNat ∧
      n ≤ (qtrunc (((i : ℚ) + 1) / ((M : ℚ) / (n : ℚ)))).toNat
  · rw [if_pos hcond]
    exact ⟨le_refl _, hb_lt⟩
  · rw [if_neg hcond]
    exact ⟨hbe0, by omega⟩

/-- Counterexample for C7 as frozen: at pitch factor 1 the averaging window of
output index 0 holds the two samples 0 and 100 (indices 0 and 1), so the
output begins with their mean 50 rather than the input sample 0; the windows
do not have size 1 and the transform is not the identity. -/
theorem do_pitch_shift_window_not_identity :
    do_pitch_shift [((0 : ℤ), (0 : ℤ)), (100, 0)] 1 = [(50, 0), (100, 0)]
    ∧ do_pitch_shift [((0 : ℤ), (0 : ℤ)), (100, 0)] 1 ≠ [(0, 0), (100, 0)] := by
  have hb0 : pitch_begin 2 2 0 = 0 := by norm_num [pitch_begin, qtrunc]
  have he0 : pitch_end 2 2 0 = 1 := by norm_num [pitch_end, pitch_begin, qtrunc]
  have hb1 : pitch_begin 2 2 1 = 1 := by norm_num [pitch_begin, qtrunc]
  have he1 : pitch_end 2 2 1 = 1 := by norm_num [pitch_end, pitch_begin, qtrunc]
  have h0 : pitch_frame [((0 : ℤ), (0 : ℤ)), (100, 0)] 2 0 = (50, 0) := by
    norm_num [pitch_frame, pitch_window, hb0, he0, window_samples_lt, window_samples_rt,
      qtrunc, List.range_succ]
  have h1 : pitch_frame [((0 : ℤ), (0 : ℤ)), (100, 0)] 2 1 = (100, 0) := by
    norm_num [pitch_frame, pitch_window, hb1, he1, window_samples_lt, window_samples_rt,
      qtrunc, List.range_succ]
  have hs : (qtrunc ((List.length [((0 : ℤ), (0 : ℤ)), (100, 0)] : ℚ) * 1)).toNat = 2 := by
    norm_num [qtrunc]
    decide
  have hmain : do_pitch_shift [((0 : ℤ), (0 : ℤ)), (100, 0)] 1 = [(50, 0), (100, 0)] := by
    rw [do_pitch_shift, hs]
    have hr : List.range 2 = [0, 1] := rfl
    rw [hr]
    simp only [List.map_cons, List.map_nil]
    rw [h0, h1]
  refine ⟨hmain, ?_⟩
  rw [hmain]
  decide

/-- Claim C7 (amended): each output sample is the truncated arithmetic mean of
the input samples whose indices fall in the closed window from
begin = trunc(i / p_real) to end = trunc((i + 1) / p_real) (p_real the
effective factor s_out / s_in), with end pulled back to begin when it would
reach the input length; the window always holds at least one sample and stays
inside the input; at pitch factor 1 the output keeps the input length and the
windows are [i, i + 1], of size two, except the final window [n - 1]. -/
theorem do_pitch_shift_window_mean (src : List Frame) (p : ℚ) (i j : ℕ)
    (hp : 0 < p) (hi : i < (do_pitch_shift src p).length) :
    (do_pitch_shift src p).getD i (0, 0) =
      (trunc_mean (window_samples_lt src (window_members src.length
          (pitch_begin src.length (do_pitch_shift src p).length i)
          (pitch_end src.length (do_pitch_shift src p).length i))),
       trunc_mean (window_samples_rt src (window_members src.length
          (pitch_begin src.length (do_pitch_shift src p).length i)
          (pitch_end src.length (do_pitch_shift src p).length i))))
    ∧ pitch_begin src.length (do_pitch_shift src p).length i ≤
        pitch_end src.length (do_pitch_shift src p).length i
    ∧ pitch_end src.length (do_pitch_shift src p).length i < src.length
    ∧ (j ∈ pitch_window src.length (do_pitch_shift src p).length i ↔
        pitch_begin src.length (do_pitch_shift src p).length i ≤ j ∧
          j ≤ pitch_end src.length (do_pitch_shift src p).length i)
    ∧ (do_pitch_shift src 1).length = src.length
    ∧ (i + 1 < src.length →
        pitch_begin src.length src.length i = i ∧
          pitch_end src.length src.length i = i + 1)
    ∧ (0 < src.length →
        pitch_end src.length src.length (src.length - 1) =
          pitch_begin src.length src.length (src.length - 1)) := by
  have hm : (do_pitch_shift src p).length = (qtrunc ((src.length : ℚ) * p)).toNat := by
    unfold do_pitch_shift
    rw [List.length_map, List.length_range]
  rw [hm] at hi ⊢
  obtain ⟨hbe, hen⟩ := pitch_window_bounds src p i hi
  refine ⟨?_, hbe, hen, ?_, ?_, ?_, ?_⟩
  · have hgd : (do_pitch_shift src p).getD i (0, 0) =
        pitch_frame src ((qtrunc ((src.length : ℚ) * p)).toNat) i := by
      rw [List.getD_eq_getElem?_getD]
      unfold do_pitch_shift
      rw [List.getElem?_map, List.getElem?_range hi]
      rfl
    rw [hgd, window_members_eq _ _ _ hbe hen]
    unfold pitch_frame trunc_mean pitch_window
    simp [window_samples_lt, window_samples_rt]
  · unfold pitch_window
    simp only [List.mem_map, List.mem_range]
    constructor
    · rintro ⟨a, ha, rfl⟩
      omega
    · rintro ⟨hj1, hj2⟩
      exact ⟨j - pitch_begin src.length ((qtrunc ((src.length : ℚ) * p)).toNat) i,
        by omega, by omega⟩
  · unfold do_pitch_shift
    rw [List.length_map, List.length_range, mul_one,
      qtrunc_nonneg_eq_floor (Nat.cast_nonneg _), Int.floor_natCast, Int.toNat_natCast]
  · intro h12
    have hnq0 : ((src.length : ℚ)) ≠ 0 := by
      exact_mod_cast (by omega : src.length ≠ 0)
    constructor
    · unfold pitch_begin
      rw [div_self hnq0, div_one, qtrunc_nonneg_eq_floor (Nat.cast_nonneg _),
        Int.floor_natCast, Int.toNat_natCast]
    · simp only [pitch_end]
      rw [div_self hnq0, div_one]
      have he0 : (qtrunc ((i : ℚ) + 1)).toNat = i + 1 := by
        have hcast : ((i : ℚ) + 1) = ((i + 1 : ℕ) : ℚ) := by
          push_cast
          ring
        rw [hcast, qtrunc_nonneg_eq_floor (Nat.cast_nonneg _), Int.floor_natCast,
          Int.toNat_natCast]
      rw [he0, if_neg]
      rintro ⟨-, habs⟩
      omega
  · intro h0
    have hnq0 : ((src.length : ℚ)) ≠ 0 := by
      exact_mod_cast (by omega : src.length ≠ 0)
    simp only [pitch_end]
    rw [div_self hnq0, div_one]
    have hcast : ((src.length - 1 : ℕ) : ℚ) + 1 = (src.length : ℚ) := by
      rw [Nat.cast_sub h0]
      push_cast
      ring
    rw [hcast, qtrunc_nonneg_eq_floor (Nat.cast_nonneg _), Int.floor_natCast,
      Int.toNat_natCast, if_pos ⟨h0, le_refl _⟩]

/-- Witness for C7 at a two-frame source and pitch factor 1. -/
theorem do_pitch_shift_window_mean_witness :
    (do_pitch_shift [((0 : ℤ), (0 : ℤ)), (100, 0)] 1).getD 0 (0, 0) =
      (trunc_mean (window_samples_lt [((0 : ℤ), (0 : ℤ)), (100, 0)]
          (window_members (List.length [((0 : ℤ), (0 : ℤ)), (100, 0)])
          (pitch_begin (List.length [((0 : ℤ), (0 : ℤ)), (100, 0)])
            (do_pitch_shift [((0 : ℤ), (0 : ℤ)), (100, 0)] 1).length 0)
          (pitch_end (List.length [((0 : ℤ), (0 : ℤ)), (100, 0)])
            (do_pitch_shift [((0 : ℤ), (0 : ℤ)), (100, 0)] 1).length 0))),
       trunc_mean (window_samples_rt [((0 : ℤ), (0 : ℤ)), (100, 0)]
          (window_members (List.length [((0 : ℤ), (0 : ℤ)), (100, 0)])
          (pitch_begin (List.length [((0 : ℤ), (0 : ℤ)), (100, 0)])
            (do_pitch_shift [((0 : ℤ), (0 : ℤ)), (100, 0)] 1).length 0)
          (pitch_end (List.length [((0 : ℤ), (0 : ℤ)), (100, 0)])
            (do_pitch_shift [((0 : ℤ), (0 : ℤ)), (100, 0)] 1).length 0))))
    ∧ pitch_begin (List.length [((0 : ℤ), (0 : ℤ)), (100, 0)])
        (do_pitch_shift [((0 : ℤ), (0 : ℤ)), (100, 0)] 1).length 0 ≤
        pitch_end (List.length [((0 : ℤ), (0 : ℤ)), (100, 0)])
          (do_pitch_shift [((0 : ℤ), (0 : ℤ)), (100, 0)] 1).length 0
    ∧ pitch_end (List.length [((0 : ℤ), (0 : ℤ)), (100, 0)])
        (do_pitch_shift [((0 : ℤ), (0 : ℤ)), (100, 0)] 1).length 0 <
        List.length [((0 : ℤ), (0 : ℤ)), (100, 0)]
    ∧ (1 ∈ pitch_window (List.length [((0 : ℤ), (0 : ℤ)), (100, 0)])
          (do_pitch_shift [((0 : ℤ), (0 : ℤ)), (100, 0)] 1).length 0 ↔
        pitch_begin (List.length [((0 : ℤ), (0 : ℤ)), (100, 0)])
          (do_pitch_shift [((0 : ℤ), (0 : ℤ)), (100, 0)] 1).length 0 ≤ 1 ∧
          1 ≤ pitch_end (List.length [((0 : ℤ), (0 : ℤ)), (100, 0)])
            (do_pitch_shift [((0 : ℤ), (0 : ℤ)), (100, 0)] 1).length 0)
    ∧ (do_pitch_shift [((0 : ℤ), (0 : ℤ)), (100, 0)] 1).length =
        List.length [((0 : ℤ), (0 : ℤ)), (100, 0)]
    ∧ (0 + 1 < List.length [((0 : ℤ), (0 : ℤ)), (100, 0)] →
        pitch_begin (List.length [((0 : ℤ), (0 : ℤ)), (100, 0)])
          (List.length [((0 : ℤ), (0 : ℤ)), (100, 0)]) 0 = 0 ∧
          pitch_end (List.length [((0 : ℤ), (0 : ℤ)), (100, 0)])
            (List.length [((0 : ℤ), (0 : ℤ)), (100, 0)]) 0 = 0 + 1)
    ∧ (0 < List.length [((0 : ℤ), (0 : ℤ)), (100, 0)] →
        pitch_end (List.length [((0 : ℤ), (0 : ℤ)), (100, 0)])
          (List.length [((0 : ℤ), (0 : ℤ)), (100, 0)])
          (List.length [((0 : ℤ), (0 : ℤ)), (100, 0)] - 1) =
          pitch_begin (List.length [((0 : ℤ), (0 : ℤ)), (100, 0)])
            (List.length [((0 : ℤ), (0 : ℤ)), (100, 0)])
            (List.length [((0 : ℤ), (0 : ℤ)), (100, 0)] - 1)) :=
  do_pitch_shift_window_mean [((0 : ℤ), (0 : ℤ)), (100, 0)] 1 0 1 (by norm_num)
    (by norm_num [do_pitch_shift, qtrunc])

end SdlSound
